import Mathlib

/-!
Verification development for the `simple-mcp` repository
(`mcp_server.py` and `mcp_client.py`).

The repository's tool handlers and client REPL are embedded shallowly:

* The `calculate` tool calls Python `eval(expression, {"__builtins__": {}},
  allowed_names)`.  Python `eval` first parses the string into an expression
  AST and then evaluates it; the parser is not embedded, so `calculate`
  below receives the parse outcome (`Except String PyExpr`, where `.error`
  stands for a `SyntaxError`) together with the original source text that
  the handler interpolates into its messages.  `PyExpr` covers the fragment
  of Python expressions whose values are exactly representable (integers,
  rationals standing for the float results of `/` and negative powers, and
  strings); of the restricted `allowed_names` namespace the fragment models
  the exactly-computable members `abs`, `floor`, `ceil`, `pow`, `min`,
  `max`.  Non-integer float exponents and the transcendental `math`
  members are outside the fragment (their application is an explicit
  evaluation error here).  Exception message texts are abstracted.
* The file-system tools (`list_files`, `read_file`, `write_file`) are
  embedded with the operating-system interaction made an explicit input:
  the outcome of `os.listdir`/`open` is a parameter, and `write_file`
  threads an explicit file-system state (`FS`).
* The client's interactive loop is embedded over `List Char` (Python
  strings are sequences of code points), one command line at a time; the
  effect of a command is the single `Action` the branch performs.
-/

namespace SimpleMCP

/-- The double-quote character. -/
def dquote : Char := Char.ofNat 34

/-- The single-quote character. -/
def squote : Char := Char.ofNat 39

/-! ## The Python expression fragment evaluated by `calculate` -/

/-- Binary operators of the embedded Python expression fragment. -/
inductive PyBinOp where
  | add
  | sub
  | mul
  | div
  | pow
  deriving DecidableEq, Repr

/-- The members of the `calculate` tool's restricted namespace that the
fragment models (the exactly-computable ones). -/
inductive FuncTag where
  | fabs
  | ffloor
  | fceil
  | fpow
  | fmin
  | fmax
  deriving DecidableEq, Repr

/-- Values of the embedded Python fragment.  `float` carries the exact
rational value of the Python float where that value is exact. -/
inductive PyVal where
  | int (n : Int)
  | float (q : Rat)
  | str (s : String)
  | func (f : FuncTag)
  deriving DecidableEq, Repr

/-- Python expressions, post-parse.  `call1`/`call2` are calls of a named
function with one or two arguments. -/
inductive PyExpr where
  | intLit (n : Nat)
  | strLit (s : String)
  | name (x : String)
  | neg (e : PyExpr)
  | binop (op : PyBinOp) (a b : PyExpr)
  | call1 (f : String) (a : PyExpr)
  | call2 (f : String) (a b : PyExpr)
  deriving DecidableEq, Repr

/-- Python string repetition `s * n` (empty for a non-positive count). -/
def strRepeat (s : String) (n : Int) : String :=
  String.join (List.replicate n.toNat s)

/-- Exponentiation with a rational base and integer exponent, with Python's
`ZeroDivisionError` on a negative power of zero. -/
def powFloat (q : Rat) (b : Int) : Except String PyVal :=
  if q = 0 ∧ b < 0 then .error "zero cannot be raised to a negative power"
  else .ok (.float (q ^ b))

/-- Semantics of the binary operators, following Python: `+` also
concatenates strings, `*` also repeats a string by an integer, `/` always
produces a float, `**` of two ints is an int for a non-negative exponent. -/
def evalBin : PyBinOp → PyVal → PyVal → Except String PyVal
  | .add, .int m, .int n => .ok (.int (m + n))
  | .add, .int m, .float q => .ok (.float (m + q))
  | .add, .float q, .int n => .ok (.float (q + n))
  | .add, .float p, .float q => .ok (.float (p + q))
  | .add, .str s, .str t => .ok (.str (s ++ t))
  | .add, _, _ => .error "unsupported operand types for +"
  | .sub, .int m, .int n => .ok (.int (m - n))
  | .sub, .int m, .float q => .ok (.float (m - q))
  | .sub, .float q, .int n => .ok (.float (q - n))
  | .sub, .float p, .float q => .ok (.float (p - q))
  | .sub, _, _ => .error "unsupported operand types for -"
  | .mul, .int m, .int n => .ok (.int (m * n))
  | .mul, .int m, .float q => .ok (.float (m * q))
  | .mul, .float q, .int n => .ok (.float (q * n))
  | .mul, .float p, .float q => .ok (.float (p * q))
  | .mul, .str s, .int n => .ok (.str (strRepeat s n))
  | .mul, .int n, .str s => .ok (.str (strRepeat s n))
  | .mul, _, _ => .error "unsupported operand types for *"
  | .div, .int m, .int n =>
    if n = 0 then .error "division by zero" else .ok (.float ((m : Rat) / n))
  | .div, .int m, .float q =>
    if q = 0 then .error "float division by zero" else .ok (.float (m / q))
  | .div, .float p, .int n =>
    if n = 0 then .error "float division by zero" else .ok (.float (p / n))
  | .div, .float p, .float q =>
    if q = 0 then .error "float division by zero" else .ok (.float (p / q))
  | .div, _, _ => .error "unsupported operand types for /"
  | .pow, .int a, .int b =>
    if 0 ≤ b then .ok (.int (a ^ b.toNat)) else powFloat (a : Rat) b
  | .pow, .float q, .int b => powFloat q b
  | .pow, .int a, .float e =>
    if e.den = 1 then powFloat (a : Rat) e.num
    else .error "non-integer exponent outside the modelled fragment"
  | .pow, .float q, .float e =>
    if e.den = 1 then powFloat q e.num
    else .error "non-integer exponent outside the modelled fragment"
  | .pow, _, _ => .error "unsupported operand types for **"

/-- Names bound in the modelled part of `allowed_names`. -/
def allowedKeys : List String := ["abs", "floor", "ceil", "pow", "min", "max"]

/-- Name lookup in the restricted namespace the handler passes to `eval`
(`{"__builtins__": {}}` globals, `allowed_names` locals); an unbound name
is a `NameError`. -/
def lookupName (x : String) : Except String PyVal :=
  if x = "abs" then .ok (.func .fabs)
  else if x = "floor" then .ok (.func .ffloor)
  else if x = "ceil" then .ok (.func .fceil)
  else if x = "pow" then .ok (.func .fpow)
  else if x = "min" then .ok (.func .fmin)
  else if x = "max" then .ok (.func .fmax)
  else .error ("name " ++ x ++ " is not defined")

/-- The numeric value of a `PyVal`, when it is a number. -/
def pyValRat : PyVal → Option Rat
  | .int n => some (n : Rat)
  | .float q => some q
  | .str _ => none
  | .func _ => none

/-- One-argument application of a value, following Python's builtins. -/
def apply1 : PyVal → PyVal → Except String PyVal
  | .func .fabs, .int n => .ok (.int (if n < 0 then -n else n))
  | .func .fabs, .float q => .ok (.float (if q < 0 then -q else q))
  | .func .fabs, _ => .error "bad operand type for abs"
  | .func .ffloor, .int n => .ok (.int n)
  | .func .ffloor, .float q => .ok (.int (Rat.floor q))
  | .func .ffloor, _ => .error "must be a real number"
  | .func .fceil, .int n => .ok (.int n)
  | .func .fceil, .float q => .ok (.int (Rat.ceil q))
  | .func .fceil, _ => .error "must be a real number"
  | .func .fpow, _ => .error "pow expected 2 arguments, got 1"
  | .func .fmin, _ => .error "min argument is not iterable"
  | .func .fmax, _ => .error "max argument is not iterable"
  | _, _ => .error "object is not callable"

/-- Two-argument application of a value, following Python's builtins
(`min`/`max` return the first extremal argument, comparing numbers
numerically and strings lexicographically). -/
def apply2 : PyVal → PyVal → PyVal → Except String PyVal
  | .func .fpow, a, b => evalBin .pow a b
  | .func .fmin, .str s, .str t => .ok (.str (if t < s then t else s))
  | .func .fmin, a, b =>
    match pyValRat a, pyValRat b with
    | some x, some y => .ok (if y < x then b else a)
    | _, _ => .error "comparison not supported between these instances"
  | .func .fmax, .str s, .str t => .ok (.str (if s < t then t else s))
  | .func .fmax, a, b =>
    match pyValRat a, pyValRat b with
    | some x, some y => .ok (if x < y then b else a)
    | _, _ => .error "comparison not supported between these instances"
  | .func .fabs, _, _ => .error "abs takes exactly one argument"
  | .func .ffloor, _, _ => .error "floor takes exactly one argument"
  | .func .fceil, _, _ => .error "ceil takes exactly one argument"
  | _, _, _ => .error "object is not callable"

/-- Evaluation of the embedded Python expression fragment in the restricted
namespace; `.error` stands for a raised Python exception. -/
def pyEval : PyExpr → Except String PyVal
  | .intLit n => .ok (.int n)
  | .strLit s => .ok (.str s)
  | .name x => lookupName x
  | .neg e =>
    match pyEval e with
    | .error m => .error m
    | .ok (.int n) => .ok (.int (-n))
    | .ok (.float q) => .ok (.float (-q))
    | .ok _ => .error "bad operand type for unary minus"
  | .binop op a b =>
    match pyEval a with
    | .error m => .error m
    | .ok va =>
      match pyEval b with
      | .error m => .error m
      | .ok vb => evalBin op va vb
  | .call1 f a =>
    match lookupName f with
    | .error m => .error m
    | .ok vf =>
      match pyEval a with
      | .error m => .error m
      | .ok va => apply1 vf va
  | .call2 f a b =>
    match lookupName f with
    | .error m => .error m
    | .ok vf =>
      match pyEval a with
      | .error m => .error m
      | .ok va =>
        match pyEval b with
        | .error m => .error m
        | .ok vb => apply2 vf va vb

/-- Rendering of a value by `str`, as used in the handler's f-string
(decimal rendering of non-integral floats is abstracted). -/
def pyStr : PyVal → String
  | .int n => toString n
  | .float q => if q.den = 1 then toString q.num ++ ".0" else toString q
  | .str s => s
  | .func _ => "<built-in function>"

/-- The body of the `calculate` handler's `try` block: parse (`.error` of
`parsed` is a `SyntaxError`), evaluate, and format the success message. -/
def calculateBody (src : String) (parsed : Except String PyExpr) :
    Except String String :=
  match parsed with
  | .error m => .error m
  | .ok e =>
    match pyEval e with
    | .error m => .error m
    | .ok v => .ok ("Result: " ++ src ++ " = " ++ pyStr v)

/-- The `calculate` tool handler (`mcp_server.py`, lines 20-49): the body
under `try`, with every exception converted to a `Calculation error:`
string. -/
def calculate (src : String) (parsed : Except String PyExpr) : String :=
  match calculateBody src parsed with
  | .ok s => s
  | .error m => "Calculation error: " ++ m

/-- The spec's sandboxed arithmetic-expression grammar, modelled from the
spec's words: numbers, the operators plus, minus, times, divide and power,
parentheses (invisible at the AST level), and calls of (or references to)
the fixed allow-list of named functions.  String literals are not part of
the grammar. -/
def specArithGrammar : PyExpr → Bool
  | .intLit _ => true
  | .strLit _ => false
  | .name x => allowedKeys.contains x
  | .neg e => specArithGrammar e
  | .binop _ a b => specArithGrammar a && specArithGrammar b
  | .call1 f a => allowedKeys.contains f && specArithGrammar a
  | .call2 f a b =>
    allowedKeys.contains f && specArithGrammar a && specArithGrammar b

/-! ## Server file-system tools -/

/-- Kind of a directory entry, as classified by `os.path.isfile` and
`os.path.isdir` on the joined path. -/
inductive EntryKind where
  | file
  | dir
  | other
  deriving DecidableEq, Repr

/-- Outcome of `os.path.exists(directory)` plus `os.listdir(directory)` in
`list_files`: the path is missing, the listing raises (with the exception's
message), or it yields the entries with their kinds. -/
inductive LookupResult where
  | missing
  | raised (msg : String)
  | listing (entries : List (String × EntryKind))
  deriving DecidableEq, Repr

/-- The decoration `list_files` gives one directory entry: a file marker
before a regular file's name, a folder marker before a directory's name
with a trailing slash, nothing for other entries. -/
def decorateEntry : String × EntryKind → Option String
  | (name, .file) => some ("📄 " ++ name)
  | (name, .dir) => some ("📁 " ++ name ++ "/")
  | (_, .other) => none

/-- The `list_files` tool handler (`mcp_server.py`, lines 51-75): report a
missing directory, convert a raised exception, or join the sorted
decorated entries under the header. -/
def list_files (directory : String) (r : LookupResult) : String :=
  match r with
  | .missing => "Directory does not exist: " ++ directory
  | .raised m => "Error listing files: " ++ m
  | .listing entries =>
    let files := entries.filterMap decorateEntry
    let files_list := String.intercalate "\n" (List.insertionSort (· ≤ ·) files)
    "Files in " ++ directory ++ ":\n" ++ files_list

/-- Outcome of `os.path.exists(filepath)` plus `open(filepath).read()` in
`read_file`. -/
inductive ReadOutcome where
  | missing
  | raised (msg : String)
  | contentIs (s : String)
  deriving DecidableEq, Repr

/-- The body of the `read_file` handler's `try` block (a missing file is a
normal return, not an exception). -/
def readFileBody (filepath : String) (r : ReadOutcome) : Except String String :=
  match r with
  | .missing => .ok ("File does not exist: " ++ filepath)
  | .raised m => .error m
  | .contentIs s => .ok ("Contents of " ++ filepath ++ ":\n\n" ++ s)

/-- The `read_file` tool handler (`mcp_server.py`, lines 77-94). -/
def read_file (filepath : String) (r : ReadOutcome) : String :=
  match readFileBody filepath r with
  | .ok s => s
  | .error m => "Error reading file: " ++ m

/-- The prefix of a path up to and including its last slash (empty when
there is no slash): `p[:p.rfind("/") + 1]` of `posixpath.dirname`. -/
def takeToLastSlash (p : List Char) : List Char :=
  (p.reverse.dropWhile (fun c => c ≠ '/')).reverse

/-- Python `head.rstrip("/")`: drop trailing slashes. -/
def stripSlashesEnd (l : List Char) : List Char :=
  (l.reverse.dropWhile (fun c => c = '/')).reverse

/-- `os.path.dirname` on the character list: the prefix up to and including
the last slash, then stripped of trailing slashes unless it is empty or
consists only of slashes. -/
def dirnameL (p : List Char) : List Char :=
  if takeToLastSlash p = [] then []
  else if (takeToLastSlash p).all (fun c => c = '/') then takeToLastSlash p
  else stripSlashesEnd (takeToLastSlash p)

/-- `os.path.dirname` on strings. -/
def dirname (s : String) : String := String.mk (dirnameL s.data)

/-- Explicit file-system state for `write_file`: the existing directories
and the files with their contents. -/
structure FS where
  dirs : List String
  files : List (String × String)
  deriving DecidableEq, Repr

/-- The chain of directories `os.makedirs` brings into existence: the
directory and its ancestors by iterated `dirname`, stopping at an empty or
fixed-point parent; the fuel is the path's length (iterated `dirname`
never grows a path). -/
def dirChain : Nat → String → List String
  | 0, _ => []
  | n + 1, d =>
    if d = "" then []
    else d :: (if dirname d = d then [] else dirChain n (dirname d))

/-- `os.makedirs(directory, exist_ok=True)`: records the directory and all
its ancestors as existing; with `exist_ok=True` it does not fail on an
existing directory. -/
def makedirs (d : String) (fs : FS) : FS :=
  { fs with dirs := dirChain d.length d ++ fs.dirs }

/-- `open(filepath, "w")` followed by `file.write(content)`: fails when the
path is an existing directory (`IsADirectoryError`), fails when the parent
directory is named but does not exist (`FileNotFoundError`), and otherwise
records the file's new content. -/
def openWrite (filepath content : String) (fs : FS) : Except String FS :=
  if filepath ∈ fs.dirs then .error ("Is a directory: " ++ filepath)
  else if dirname filepath = "" ∨ dirname filepath ∈ fs.dirs then
    .ok { fs with
          files := (filepath, content) :: fs.files.filter (fun p => p.1 ≠ filepath) }
  else .error ("No such file or directory: " ++ filepath)

/-- The body of the `write_file` handler's `try` block: create the parent
directory when it is named (`if directory:`), then write; paired with the
file system after the effects performed so far. -/
def writeFileAttempt (filepath content : String) (fs : FS) :
    Except String String × FS :=
  let directory := dirname filepath
  let fs1 := if directory ≠ "" then makedirs directory fs else fs
  match openWrite filepath content fs1 with
  | .ok fs2 =>
    (.ok ("Successfully wrote " ++ toString content.length ++ " characters to "
        ++ filepath), fs2)
  | .error m => (.error m, fs1)

/-- The `write_file` tool handler (`mcp_server.py`, lines 96-116). -/
def write_file (filepath content : String) (fs : FS) : String × FS :=
  match writeFileAttempt filepath content fs with
  | (.ok s, fs2) => (s, fs2)
  | (.error m, fs2) => ("Error writing file: " ++ m, fs2)

/-! ## Client (`mcp_client.py`) -/

/-- A content item of a tool-call result; the source extracts text with a
`hasattr(content, "text")` check, so an item either carries text or does
not. -/
inductive ContentItem where
  | text (t : String)
  | other
  deriving DecidableEq, Repr

/-- The result value returned by `session.call_tool` (the MCP result type
also carries an `isError` flag, which this client never reads). -/
structure CallToolResult where
  content : List ContentItem
  isError : Bool
  deriving DecidableEq, Repr

/-- The extraction loop of the client's `call_tool`: return the first
content item that has a `text` attribute, or fall through to the default
message (also used when the content list is empty). -/
def extractText : List ContentItem → String
  | [] => "No content returned"
  | .text t :: _ => t
  | .other :: rest => extractText rest

/-- The client's `call_tool` wrapper (`mcp_client.py`, lines 70-85).  Its
input is the outcome of `await session.call_tool(...)`: `.ok` carries the
decoded result (which is how a handler-level failure arrives from the
server), `.error` is a raised transport- or protocol-level exception.  An
`.error` on the output side would be an exception propagating out of the
wrapper to its caller. -/
def call_tool (outcome : Except String CallToolResult) : Except String String :=
  match outcome with
  | .ok result => .ok (extractText result.content)
  | .error e => .ok ("Error: " ++ e)

/-- A tool descriptor as cached by the client. -/
structure ToolDescriptor where
  name : String
  description : String
  deriving DecidableEq, Repr

/-- The cache update performed by the client's `list_tools` wrapper
(`mcp_client.py`, lines 56-68): on success, `self.tools = result.tools`
replaces the cache wholesale; a raised exception is caught and logged,
leaving the cache unchanged. -/
def listToolsCache (oldCache : List ToolDescriptor)
    (result : Except String (List ToolDescriptor)) : List ToolDescriptor :=
  match result with
  | .ok ts => ts
  | .error _ => oldCache

/-! ## The interactive command loop (`mcp_client.py`, lines 123-183) -/

/-- Python `str.strip()`: drop leading and trailing whitespace. -/
def pyStrip (l : List Char) : List Char :=
  ((l.dropWhile Char.isWhitespace).reverse.dropWhile Char.isWhitespace).reverse

/-- Python `str.split()` with no separator: split on whitespace and drop
the empty pieces. -/
def pySplitWS (l : List Char) : List (List Char) :=
  (l.splitOnP Char.isWhitespace).filter (fun w => w ≠ [])

/-- Python `str.lower()` (ASCII case, which covers the compared
literals). -/
def pyLower (l : List Char) : List Char := l.map Char.toLower

/-- State of the character loop in `parse_command_args`: the collected
arguments, the argument being built, and the quoting mode. -/
structure PState where
  args : List (List Char)
  current : List Char
  inQuotes : Bool
  quoteChar : Option Char
  deriving DecidableEq, Repr

/-- One iteration of the `parse_command_args` character loop. -/
def pStep (st : PState) (c : Char) : PState :=
  if st.inQuotes = false then
    if c = dquote ∨ c = squote then
      { st with inQuotes := true, quoteChar := some c }
    else if c = ' ' then
      if st.current ≠ [] then
        { st with args := st.args ++ [st.current], current := [] }
      else st
    else { st with current := st.current ++ [c] }
  else
    if some c = st.quoteChar then { st with inQuotes := false, quoteChar := none }
    else { st with current := st.current ++ [c] }

/-- After the loop: append the last argument if there is one. -/
def pFinish (st : PState) : List (List Char) :=
  if st.current ≠ [] then st.args ++ [st.current] else st.args

/-- `parse_command_args` (`mcp_client.py`, lines 87-121): split a command
line into arguments, treating quoted runs as part of the current argument
(the quote characters themselves are dropped). -/
def parse_command_args (l : List Char) : List (List Char) :=
  pFinish (l.foldl pStep ⟨[], [], false, none⟩)

/-- The single effect an iteration of the interactive loop performs for one
command. -/
inductive Action where
  | quit
  | help
  | listTools
  | callTool (tool : String) (args : List (String × List Char))
  | usage (msg : String)
  | skip
  | unknown
  deriving DecidableEq, Repr

/-- One iteration of the interactive loop on the already-stripped command:
the `if/elif` chain of `mcp_client.py`, lines 132-178, in source order. -/
def dispatchCommand (command : List Char) : Action :=
  let lower := pyLower command
  if lower = "quit".data ∨ lower = "exit".data ∨ lower = "q".data then .quit
  else if lower = "help".data then .help
  else if lower = "tools".data then .listTools
  else if ("calc ".data).isPrefixOf command then
    let expression := pyStrip (command.drop 5)
    if expression ≠ [] then .callTool "calculate" [("expression", expression)]
    else .usage "Usage: calc <expression>"
  else if ("ls".data).isPrefixOf command then
    let parts := pySplitWS command
    let directory := match parts[1]? with | some d => d | none => ".".data
    .callTool "list_files" [("directory", directory)]
  else if ("read ".data).isPrefixOf command then
    let filepath := pyStrip (command.drop 5)
    if filepath ≠ [] then .callTool "read_file" [("filepath", filepath)]
    else .usage "Usage: read <filepath>"
  else if ("write ".data).isPrefixOf command then
    let args := parse_command_args (pyStrip (command.drop 6))
    if 2 ≤ args.length then
      .callTool "write_file"
        [("filepath", args.headD []), ("content", List.intercalate [' '] args.tail)]
    else .usage "Usage: write <filepath> <content>"
  else if command = [] then .skip
  else .unknown

/-- The loop body reads a line and strips it before dispatching. -/
def interactiveStep (line : List Char) : Action :=
  dispatchCommand (pyStrip line)

/-- Does an action invoke the `list_files` tool? -/
def callsListFiles : Action → Bool
  | .callTool t _ => t = "list_files"
  | _ => false

/-- The shape `ls [dir]` of the claim about the `ls` command, modelled from
the claim's words: the command's first whitespace-separated token is
exactly `ls`. -/
def isLsCommandForm (command : List Char) : Bool :=
  (pySplitWS command).head? == some ("ls".data)

/-- Splitting on spaces and dropping the empty tokens: the spec side of
the `parse_command_args` refinement claim. -/
def specSplitSpaces (l : List Char) : List (List Char) :=
  (l.splitOnP (fun c => c = ' ')).filter (fun w => w ≠ [])

/-- No single- or double-quote character occurs in the input. -/
def noQuoteChars (l : List Char) : Bool :=
  l.all (fun c => (c != dquote) && (c != squote))

/-! ## Helper lemmas -/

theorem takeToLastSlash_prefixes (p : List Char) : takeToLastSlash p <+: p := by
  have h := List.reverse_prefix.mpr (List.dropWhile_suffix (l := p.reverse) (fun c => c ≠ '/'))
  simpa [takeToLastSlash] using h

theorem stripSlashesEnd_prefixes (l : List Char) : stripSlashesEnd l <+: l := by
  have h := List.reverse_prefix.mpr (List.dropWhile_suffix (l := l.reverse) (fun c => c = '/'))
  simpa [stripSlashesEnd] using h

theorem dirnameL_prefixes (p : List Char) : dirnameL p <+: p := by
  unfold dirnameL
  split_ifs with h1 h2
  · exact List.nil_prefix
  · exact takeToLastSlash_prefixes p
  · exact (stripSlashesEnd_prefixes (takeToLastSlash p)).trans (takeToLastSlash_prefixes p)

theorem dirname_length_le (s : String) : (dirname s).length ≤ s.length :=
  (dirnameL_prefixes s.data).length_le

theorem dirname_length_lt (s : String) (h : dirname s ≠ s) :
    (dirname s).length < s.length := by
  rcases Nat.lt_or_ge (dirname s).length s.length with hlt | hge
  · exact hlt
  · exfalso
    apply h
    have heq : (dirnameL s.data).length = s.data.length :=
      Nat.le_antisymm (dirname_length_le s) hge
    have h2 := (dirnameL_prefixes s.data).eq_of_length heq
    cases s with
    | mk data => exact congrArg String.mk h2

theorem mem_dirChain_length {n : Nat} {d e : String} (he : e ∈ dirChain n d) :
    e.length ≤ d.length := by
  induction n generalizing d with
  | zero => simp [dirChain] at he
  | succ n ih =>
    simp only [dirChain] at he
    split_ifs at he with h1 h2
    · simp at he
    · simp at he
      rw [he]
    · rcases List.mem_cons.mp he with rfl | hmem
      · exact Nat.le_refl _
      · exact Nat.le_trans (ih hmem) (dirname_length_le d)

theorem self_mem_dirChain {n : Nat} {d : String} (hd : d ≠ "") (hn : 0 < n) :
    d ∈ dirChain n d := by
  cases n with
  | zero => omega
  | succ n =>
    simp only [dirChain]
    split_ifs with h1 h2 <;> simp_all

theorem string_length_pos_of_ne {s : String} (h : s ≠ "") : 0 < s.length := by
  cases s with
  | mk data =>
    cases data with
    | nil => simp at h
    | cons c cs => simp [String.length]

theorem modifyHead_id_fun (L : List (List Char)) :
    L.modifyHead (fun w => w) = L := by
  cases L <;> simp

theorem pfold_noquotes (l : List Char) (args : List (List Char)) (cur : List Char)
    (h : noQuoteChars l = true) :
    pFinish (l.foldl pStep ⟨args, cur, false, none⟩)
      = args ++ ((l.splitOnP (fun c => c = ' ')).modifyHead (fun w => cur ++ w)).filter
          (fun w => w ≠ []) := by
  induction l generalizing args cur with
  | nil =>
    by_cases hc : cur = [] <;>
      simp [pFinish, hc, List.splitOnP_nil]
  | cons c rest ih =>
    simp only [noQuoteChars, List.all_cons, Bool.and_eq_true, bne_iff_ne] at h
    obtain ⟨⟨hq1, hq2⟩, hrest⟩ := h
    have hrest' : noQuoteChars rest = true := by
      simp only [noQuoteChars]
      exact hrest
    by_cases hsp : c = ' '
    · subst hsp
      by_cases hc : cur = []
      · subst hc
        rw [List.foldl_cons]
        rw [show pStep ⟨args, [], false, none⟩ ' ' = ⟨args, [], false, none⟩ by
          simp [pStep, hq1, hq2]]
        rw [ih args [] hrest']
        simp [List.splitOnP_cons, modifyHead_id_fun]
      · rw [List.foldl_cons]
        rw [show pStep ⟨args, cur, false, none⟩ ' '
            = ⟨args ++ [cur], [], false, none⟩ by
          simp [pStep, hq1, hq2, hc]]
        rw [ih (args ++ [cur]) [] hrest']
        simp [List.splitOnP_cons, modifyHead_id_fun, hc]
    · rw [List.foldl_cons]
      rw [show pStep ⟨args, cur, false, none⟩ c = ⟨args, cur ++ [c], false, none⟩ by
        simp [pStep, hq1, hq2, hsp]]
      rw [ih args (cur ++ [c]) hrest']
      rw [List.splitOnP_cons]
      simp only [hsp, decide_eq_true_eq, if_neg, ite_false]
      rw [List.modifyHead_modifyHead]
      have hfun : ((fun w => cur ++ w) ∘ List.cons c)
          = (fun w : List Char => cur ++ [c] ++ w) := by
        funext w
        simp
      rw [hfun]

theorem pfold_no_nil (l : List Char) (st : PState) (h : [] ∉ st.args) :
    [] ∉ pFinish (l.foldl pStep st) := by
  induction l generalizing st with
  | nil =>
    simp only [List.foldl_nil, pFinish]
    split_ifs with hc
    · simp only [List.mem_append, List.mem_singleton]
      rintro (hin | hin)
      · exact h hin
      · exact hc hin.symm
    · exact h
  | cons c rest ih =>
    rw [List.foldl_cons]
    apply ih
    simp only [pStep]
    split_ifs <;> simp_all

/-! ## Claim theorems -/

/-- The failing input of claim C1: the expression text made of a quoted
letter followed by a repetition count, that is, string repetition. -/
def c1FailingSrc : String := String.mk (dquote :: 'a' :: dquote :: (" * 3".data))

/-- The parse of the C1 failing input: a string literal times an integer
literal. -/
def c1FailingExpr : PyExpr := .binop .mul (.strLit "a") (.intLit 3)

/-- C1: the claim states that the `calculate` tool evaluates an input to a
success result only if the input conforms to the sandboxed arithmetic
grammar (numbers, the five operators, parentheses, allow-listed
functions), so that no input executes computation outside that grammar.
The code contradicts this (and its own comment restricting evaluation to
basic math operations): the string-repetition expression is outside the
grammar, yet `eval` in the restricted namespace evaluates it successfully
and the handler returns a success-shaped result. -/
theorem c1_calculate_not_confined_to_arith_grammar :
    specArithGrammar c1FailingExpr = false ∧
    pyEval c1FailingExpr = Except.ok (PyVal.str "aaa") ∧
    calculate c1FailingSrc (Except.ok c1FailingExpr)
      = "Result: " ++ c1FailingSrc ++ " = aaa" := by
  refine ⟨rfl, rfl, ?_⟩
  rfl

/-- C2: every tool handler is total and failure-signaling: for every input
each of `calculate`, `read_file` and `write_file` returns a text string,
and whenever the handler's body (its `try` block) raises, the handler
returns the corresponding failure-outcome string carrying that
exception's message, so no exception passes the dispatch boundary. -/
theorem c2_handlers_total_and_convert_exceptions :
    (∀ src parsed,
      (∃ s, calculateBody src parsed = Except.ok s ∧ calculate src parsed = s) ∨
      (∃ m, calculateBody src parsed = Except.error m ∧
        calculate src parsed = "Calculation error: " ++ m)) ∧
    (∀ filepath r,
      (∃ s, readFileBody filepath r = Except.ok s ∧ read_file filepath r = s) ∨
      (∃ m, readFileBody filepath r = Except.error m ∧
        read_file filepath r = "Error reading file: " ++ m)) ∧
    (∀ filepath content fs,
      (∃ s, (writeFileAttempt filepath content fs).1 = Except.ok s ∧
        (write_file filepath content fs).1 = s) ∨
      (∃ m, (writeFileAttempt filepath content fs).1 = Except.error m ∧
        (write_file filepath content fs).1 = "Error writing file: " ++ m)) := by
  refine ⟨?_, ?_, ?_⟩
  · intro src parsed
    cases h : calculateBody src parsed with
    | ok s => exact Or.inl ⟨s, rfl, by simp [calculate, h]⟩
    | error m => exact Or.inr ⟨m, rfl, by simp [calculate, h]⟩
  · intro filepath r
    cases h : readFileBody filepath r with
    | ok s => exact Or.inl ⟨s, rfl, by simp [read_file, h]⟩
    | error m => exact Or.inr ⟨m, rfl, by simp [read_file, h]⟩
  · intro filepath content fs
    rcases h : writeFileAttempt filepath content fs with ⟨r, fs2⟩
    cases r with
    | ok s => exact Or.inl ⟨s, by simp [h], by simp [write_file, h]⟩
    | error m => exact Or.inr ⟨m, by simp [h], by simp [write_file, h]⟩

/-- C3 counterexample: the claim states that a transport- or
protocol-level failure raises an exception out of the client's
`call_tool`.  In the code every exception is caught and converted to a
returned string, so at the concrete transport failure the wrapper returns
normally (`isOk`) on the same channel as ordinary results, refuting the
claim. -/
theorem c3_counterexample_transport_error_returned :
    call_tool (Except.error "connection closed")
      = Except.ok "Error: connection closed" ∧
    (call_tool (Except.error "connection closed")).isOk = true :=
  ⟨rfl, rfl⟩

/-- C3 amended: a handler-level failure is delivered inside the returned
text as a normal result, and a transport/protocol-level exception is also
caught and returned on the same channel as the failure string; no
exception propagates out of `call_tool`. -/
theorem c3_amended_all_failures_via_return_channel :
    (∀ outcome, (call_tool outcome).isOk = true) ∧
    (∀ r, call_tool (Except.ok r) = Except.ok (extractText r.content)) ∧
    (∀ e, call_tool (Except.error e) = Except.ok ("Error: " ++ e)) := by
  refine ⟨fun outcome => ?_, fun r => rfl, fun e => rfl⟩
  cases outcome <;> rfl

/-- C4: after every successful `list_tools` call the client's cached tool
list equals exactly the sequence the server returned, with nothing from
any earlier discovery retained and no merging. -/
theorem c4_list_tools_replaces_cache_wholesale
    (oldCache ts : List ToolDescriptor) :
    listToolsCache oldCache (Except.ok ts) = ts := rfl

/-- C5: every interactive command starting with the calc keyword and a
space issues exactly one `callTool` invocation of `calculate` with the
stripped remainder as the `expression` argument when that remainder is
non-empty, and prints a usage message with no call when it is empty. -/
theorem c5_calc_command_single_calculate_call (command : List Char)
    (h : ("calc ".data).isPrefixOf command = true) :
    dispatchCommand command =
      (if pyStrip (command.drop 5) ≠ [] then
        Action.callTool "calculate" [("expression", pyStrip (command.drop 5))]
      else Action.usage "Usage: calc <expression>") := by
  rw [show ("calc ".data) = ['c', 'a', 'l', 'c', ' '] from rfl] at h
  obtain ⟨t, rfl⟩ := List.isPrefixOf_iff_prefix.mp h
  simp [dispatchCommand, pyLower, List.isPrefixOf]

/-- Witness for C5 at the concrete command `calc 2 + 3`. -/
theorem c5_calc_command_single_calculate_call_witness :
    dispatchCommand ("calc 2 + 3".data) =
      (if pyStrip (("calc 2 + 3".data).drop 5) ≠ [] then
        Action.callTool "calculate" [("expression", pyStrip (("calc 2 + 3".data).drop 5))]
      else Action.usage "Usage: calc <expression>") :=
  c5_calc_command_single_calculate_call ("calc 2 + 3".data) (by decide)

/-- C6: every interactive command starting with the write keyword and a
space parses the stripped remainder with the quote-aware
`parse_command_args`; with at least two resulting arguments it issues
exactly one `callTool` invocation of `write_file` with the first argument
as `filepath` and the remaining arguments joined by single spaces as
`content`, and otherwise prints usage with no call. -/
theorem c6_write_command_quote_aware_write_file_call (command : List Char)
    (h : ("write ".data).isPrefixOf command = true) :
    dispatchCommand command =
      (if 2 ≤ (parse_command_args (pyStrip (command.drop 6))).length then
        Action.callTool "write_file"
          [("filepath", (parse_command_args (pyStrip (command.drop 6))).headD []),
           ("content",
            List.intercalate [' '] (parse_command_args (pyStrip (command.drop 6))).tail)]
      else Action.usage "Usage: write <filepath> <content>") := by
  rw [show ("write ".data) = ['w', 'r', 'i', 't', 'e', ' '] from rfl] at h
  obtain ⟨t, rfl⟩ := List.isPrefixOf_iff_prefix.mp h
  simp [dispatchCommand, pyLower, List.isPrefixOf]

/-- Witness for C6 at the concrete command `write hello.txt hi there`. -/
theorem c6_write_command_quote_aware_write_file_call_witness :
    dispatchCommand ("write hello.txt hi there".data) =
      (if 2 ≤ (parse_command_args (pyStrip (("write hello.txt hi there".data).drop 6))).length then
        Action.callTool "write_file"
          [("filepath",
            (parse_command_args (pyStrip (("write hello.txt hi there".data).drop 6))).headD []),
           ("content",
            List.intercalate [' ']
              (parse_command_args (pyStrip (("write hello.txt hi there".data).drop 6))).tail)]
      else Action.usage "Usage: write <filepath> <content>") :=
  c6_write_command_quote_aware_write_file_call ("write hello.txt hi there".data) (by decide)

/-- C7 counterexample: the claim states that no interactive command other
than one matching the `ls [dir]` shape triggers a `list_files` call.  The
command `lsjunk` is not of that shape (its first token is not `ls`), yet
the code's `startswith` test makes it issue a `list_files` call with
directory `.`, refuting the claim. -/
theorem c7_counterexample_ls_prefix_not_ls_form :
    isLsCommandForm ("lsjunk".data) = false ∧
    dispatchCommand ("lsjunk".data)
      = Action.callTool "list_files" [("directory", ".".data)] := by
  exact ⟨by decide, by decide⟩

/-- C7 amended: every interactive command whose text merely starts with
the two characters of the ls keyword (not only those of the `ls [dir]`
shape) issues exactly one `callTool` invocation of `list_files`, with
directory the second whitespace-separated token when present and the
current-directory dot otherwise; and no command without that two-character
start triggers a `list_files` call. -/
theorem c7_amended_ls_start_triggers_list_files (command : List Char) :
    (("ls".data).isPrefixOf command = true →
      dispatchCommand command = Action.callTool "list_files"
        [("directory",
          match (pySplitWS command)[1]? with
          | some d => d
          | none => ".".data)]) ∧
    (callsListFiles (dispatchCommand command) = true →
      ("ls".data).isPrefixOf command = true) := by
  constructor
  · intro h
    rw [show ("ls".data) = ['l', 's'] from rfl] at h
    obtain ⟨t, rfl⟩ := List.isPrefixOf_iff_prefix.mp h
    simp [dispatchCommand, pyLower, List.isPrefixOf]
  · intro h
    by_contra hn
    have hfalse : callsListFiles (dispatchCommand command) = false := by
      simp only [dispatchCommand]
      simp only [apply_ite callsListFiles]
      split_ifs <;> simp_all [callsListFiles]
    rw [h] at hfalse
    exact absurd hfalse (by simp)

/-- Witness for C7 amended, at the commands `ls /tmp` and `ls /tmp`
again through the converse direction. -/
theorem c7_amended_ls_start_triggers_list_files_witness :
    dispatchCommand ("ls /tmp".data) = Action.callTool "list_files"
      [("directory",
        match (pySplitWS ("ls /tmp".data))[1]? with
        | some d => d
        | none => ".".data)] ∧
    ("ls".data).isPrefixOf ("ls /tmp".data) = true :=
  ⟨(c7_amended_ls_start_triggers_list_files ("ls /tmp".data)).1 (by decide),
   (c7_amended_ls_start_triggers_list_files ("ls /tmp".data)).2 (by decide)⟩

/-- C8: on inputs without quote characters, `parse_command_args` returns
exactly the result of splitting on spaces and dropping the empty tokens
(the maximal space-separated runs, in order); and on every input no
returned element is the empty string. -/
theorem c8_parse_command_args_space_split_refinement :
    (∀ l, noQuoteChars l = true → parse_command_args l = specSplitSpaces l) ∧
    (∀ l, [] ∉ parse_command_args l) := by
  constructor
  · intro l h
    have h2 := pfold_noquotes l [] [] h
    simpa [parse_command_args, specSplitSpaces, modifyHead_id_fun] using h2
  · intro l
    exact pfold_no_nil l ⟨[], [], false, none⟩ (by simp)

/-- Witness for C8 at concrete inputs. -/
theorem c8_parse_command_args_space_split_refinement_witness :
    (noQuoteChars ("ab  cd e".data) = true ∧
      parse_command_args ("ab  cd e".data) = specSplitSpaces ("ab  cd e".data)) ∧
    [] ∉ parse_command_args ("  hello   world ".data) :=
  ⟨⟨by decide, c8_parse_command_args_space_split_refinement.1 ("ab  cd e".data) (by decide)⟩,
   c8_parse_command_args_space_split_refinement.2 ("  hello   world ".data)⟩

/-- C9: for an existing directory, `list_files` renders a header followed
by lines that are, in lexicographically sorted order of the decorated
names, exactly the decorations of the entries: a file marker and the name
for regular files, a folder marker, the name and a trailing slash for
directories, and nothing for other entries. -/
theorem c9_list_files_sorted_decorated_entries (directory : String)
    (entries : List (String × EntryKind)) :
    ∃ lines : List String,
      list_files directory (.listing entries)
        = "Files in " ++ directory ++ ":\n" ++ String.intercalate "\n" lines ∧
      lines.Sorted (· ≤ ·) ∧
      lines.Perm (entries.filterMap decorateEntry) := by
  refine ⟨List.insertionSort (· ≤ ·) (entries.filterMap decorateEntry), rfl, ?_, ?_⟩
  · exact List.sorted_insertionSort _ _
  · exact List.perm_insertionSort _ _

/-- C10: for a filepath whose parent directory component is non-empty and
does not yet exist (in a sane file system the path is then not itself an
existing directory and is distinct from its parent), `write_file` creates
the parent directory before writing, so the write succeeds: the handler
returns the success message, the parent directory exists afterwards, and
the file carries the written content. -/
theorem c10_write_file_creates_missing_parent (filepath content : String) (fs : FS)
    (h1 : dirname filepath ≠ "")
    (h2 : dirname filepath ∉ fs.dirs)
    (h3 : dirname filepath ≠ filepath)
    (h4 : filepath ∉ fs.dirs) :
    (write_file filepath content fs).1
      = "Successfully wrote " ++ toString content.length ++ " characters to " ++ filepath ∧
    dirname filepath ∈ (write_file filepath content fs).2.dirs ∧
    (filepath, content) ∈ (write_file filepath content fs).2.files := by
  have hlen : (dirname filepath).length < filepath.length := dirname_length_lt _ h3
  have hchain : filepath ∉ dirChain (dirname filepath).length (dirname filepath) := by
    intro hmem
    have := mem_dirChain_length hmem
    omega
  have hdmem : dirname filepath ∈ (makedirs (dirname filepath) fs).dirs := by
    simp only [makedirs, List.mem_append]
    exact Or.inl (self_mem_dirChain h1 (string_length_pos_of_ne h1))
  have hfnot : filepath ∉ (makedirs (dirname filepath) fs).dirs := by
    simp only [makedirs, List.mem_append]
    rintro (hin | hin)
    · exact hchain hin
    · exact h4 hin
  refine ⟨?_, ?_, ?_⟩ <;>
    simp [write_file, writeFileAttempt, openWrite, h1, hdmem, hfnot]

/-- Witness for C10: writing `subdir/file.txt` into an empty file
system. -/
theorem c10_write_file_creates_missing_parent_witness :
    (write_file "subdir/file.txt" "hi" ⟨[], []⟩).1
      = "Successfully wrote " ++ toString ("hi" : String).length ++ " characters to "
        ++ "subdir/file.txt" ∧
    dirname "subdir/file.txt" ∈ (write_file "subdir/file.txt" "hi" ⟨[], []⟩).2.dirs ∧
    ("subdir/file.txt", "hi") ∈ (write_file "subdir/file.txt" "hi" ⟨[], []⟩).2.files :=
  c10_write_file_creates_missing_parent "subdir/file.txt" "hi" ⟨[], []⟩
    (by decide) (by decide) (by decide) (by decide)

end SimpleMCP
